import Mathlib

/-!
Verification of the toast lifecycle engine of the `egui-notify` repository
(`src/lib.rs`, `src/toast.rs`).

The Rust code is shallowly embedded: `f32` values become exact rationals `ℚ`,
the crossbeam channel receiver becomes an explicit mailbox state (`Channel`:
pending messages plus a connected flag, where a `try_recv` pops at most one
message and reports disconnection once the queue is empty and the sender side
is gone), and the host collaborators that `Toasts::show` consumes through
`egui::Context` (screen rectangle, frame time, pointer state, text
measurement, the keyed value-animation helper) are gathered in a `FrameInput`
record.  Painting calls have no effect on any state modelled here and are
omitted; every state mutation of `Toasts::show` is reproduced in program
order.
-/

/-- Importance level of a toast (`ToastLevel` in `toast.rs`). -/
inductive ToastLevel
  | info
  | warning
  | error
  | success
  | none
deriving DecidableEq

/-- Lifecycle state of a toast (`ToastState` in `toast.rs`); the source spells
the disappearing variant `Disapper`. -/
inductive ToastState
  | Appear
  | Disapper
  | Disappeared
  | Idle
deriving DecidableEq

/-- Predicate `ToastState::appearing`. -/
def ToastState.appearing : ToastState → Bool
  | .Appear => true
  | _ => false

/-- Predicate `ToastState::disappearing`. -/
def ToastState.disappearing : ToastState → Bool
  | .Disapper => true
  | _ => false

/-- Predicate `ToastState::disappeared`. -/
def ToastState.disappeared : ToastState → Bool
  | .Disappeared => true
  | _ => false

/-- Predicate `ToastState::idling`. -/
def ToastState.idling : ToastState → Bool
  | .Idle => true
  | _ => false

/-- Position of a state along the forward lifecycle chain
`Appearing → Idle → Disappearing → Disappeared`; used to express the
spec's "state only advances forward" invariant. -/
def ToastState.rank : ToastState → ℕ
  | .Appear => 0
  | .Idle => 1
  | .Disapper => 2
  | .Disappeared => 3

/-- Options of a toast (`ToastOptions` in `toast.rs`); `duration` is the
`(initial, current)` pair of seconds. -/
structure ToastOptions where
  duration : Option (ℚ × ℚ)
  level : ToastLevel
  closable : Bool
  show_progress_bar : Bool
deriving DecidableEq

/-- Source constant `DEFAULT_TOAST_DURATION = 3.5`. -/
def DEFAULT_TOAST_DURATION : ℚ := 7 / 2

/-- The `Default` impl for `ToastOptions`. -/
def ToastOptions.default : ToastOptions :=
  { duration := some (DEFAULT_TOAST_DURATION, DEFAULT_TOAST_DURATION)
    level := ToastLevel.none
    closable := true
    show_progress_bar := true }

/-- Message sent over a toast's update channel (`ToastUpdate` in `toast.rs`).
The `use_original_options` flag exists in the source record and is, like
there, never read by the per-frame update. -/
structure ToastUpdate where
  caption : Option String
  level : Option ToastLevel
  fallback_options : Option ToastOptions
  use_original_options : Bool
deriving DecidableEq

/-- State of the crossbeam unbounded channel observed by the single consumer:
the queued messages and whether a sender is still alive.  `try_recv` delivers
`pending` head-first and reports `Disconnected` only once `pending` is empty
and `connected` is false, matching crossbeam semantics. -/
structure Channel where
  pending : List ToastUpdate
  connected : Bool
deriving DecidableEq

/-- Single notification (`Toast` in `toast.rs`).  The `f32` fields are
embedded as `ℚ`. -/
structure Toast where
  caption : String
  options : ToastOptions
  original_options : ToastOptions
  fallback_options : Option ToastOptions
  height : ℚ
  width : ℚ
  toast_hovered : Bool
  cross_hovered : Bool
  timestamp : ℕ
  update_reciever : Option Channel
  state : ToastState
  value : ℚ
deriving DecidableEq

/-- Source constant `TOAST_WIDTH = 180`. -/
def TOAST_WIDTH : ℚ := 180

/-- Source constant `TOAST_HEIGHT = 34`. -/
def TOAST_HEIGHT : ℚ := 34

/-- Constructor `Toast::new`.  The source stamps `timestamp` from the wall
clock (an effect of the host environment); here the stamp is a parameter. -/
def Toast.new (caption : String) (options : ToastOptions) (timestamp : ℕ) : Toast :=
  { caption := caption
    height := TOAST_HEIGHT
    width := TOAST_WIDTH
    original_options := options
    options := options
    toast_hovered := false
    cross_hovered := false
    update_reciever := Option.none
    timestamp := timestamp
    value := 0
    fallback_options := Option.none
    state := ToastState.Appear }

/-- Constructor `Toast::basic`. -/
def Toast.basic (caption : String) (timestamp : ℕ) : Toast :=
  Toast.new caption ToastOptions.default timestamp

/-- Operation `Toast::with_options`. -/
def Toast.with_options (t : Toast) (options : ToastOptions) : Toast :=
  { t with options := options }

/-- Operation `Toast::dismiss`: unconditionally sets the state to
`Disapper`. -/
def Toast.dismiss (t : Toast) : Toast :=
  { t with state := ToastState.Disapper }

/-- Operation `Toast::create_channel`: installs a fresh (empty, connected)
channel and disables duration and closability.  The source also returns the
sender half; producer-side actions are modelled by the `Channel` contents the
consumer observes at frame time. -/
def Toast.create_channel (t : Toast) : Toast :=
  { t with
    options := { t.options with duration := Option.none, closable := false }
    update_reciever := some { pending := [], connected := true } }

/-- Two-dimensional vector with rational coordinates (`egui::Vec2`). -/
structure Vec2q where
  x : ℚ
  y : ℚ
deriving DecidableEq

/-- Screen position with rational coordinates (`egui::Pos2`). -/
structure Pos where
  x : ℚ
  y : ℚ
deriving DecidableEq

/-- Translation of a position by a vector (`Pos2 + Vec2`). -/
def Pos.add (p : Pos) (v : Vec2q) : Pos :=
  { x := p.x + v.x, y := p.y + v.y }

/-- Axis-aligned rectangle (`egui::Rect`). -/
structure Rect where
  min : Pos
  max : Pos
deriving DecidableEq

/-- Width of a rectangle (`Rect::width`). -/
def Rect.width (r : Rect) : ℚ := r.max.x - r.min.x

/-- Height of a rectangle (`Rect::height`). -/
def Rect.height (r : Rect) : ℚ := r.max.y - r.min.y

/-- Point-in-rectangle test (`Rect::contains`, inclusive on all sides). -/
def Rect.containsPos (r : Rect) (p : Pos) : Bool :=
  decide (r.min.x ≤ p.x) && decide (p.x ≤ r.max.x) &&
    decide (r.min.y ≤ p.y) && decide (p.y ≤ r.max.y)

/-- Rectangle from center and size (`Rect::from_center_size`). -/
def Rect.fromCenterSize (c : Pos) (s : Vec2q) : Rect :=
  { min := { x := c.x - s.x / 2, y := c.y - s.y / 2 }
    max := { x := c.x + s.x / 2, y := c.y + s.y / 2 } }

/-- One-dimensional alignment (`egui::Align`). -/
inductive Align
  | min
  | center
  | max
deriving DecidableEq

/-- Sign of an alignment (`Align` component of `Align2::to_sign`). -/
def Align.toSignQ : Align → ℚ
  | .min => -1
  | .center => 0
  | .max => 1

/-- Two-dimensional alignment / anchor (`egui::Align2`). -/
structure Align2 where
  x : Align
  y : Align
deriving DecidableEq

/-- The `Align2::RIGHT_BOTTOM` anchor, the default of `Toasts::new`. -/
def Align2.RIGHT_BOTTOM : Align2 := { x := Align.max, y := Align.max }

/-- Sign vector of an anchor (`Align2::to_sign`). -/
def Align2.toSign (a : Align2) : Vec2q :=
  { x := a.x.toSignQ, y := a.y.toSignQ }

/-- Component-wise product of vectors (`mul_vec2` in `lib.rs`). -/
def mul_vec2 (a b : Vec2q) : Vec2q :=
  { x := a.x * b.x, y := a.y * b.y }

/-- Anchor point inside a rectangle (`Align2::pos_in_rect`). -/
def Align2.posInRect (a : Align2) (frame : Rect) : Pos :=
  { x := match a.x with
      | .min => frame.min.x
      | .center => (frame.min.x + frame.max.x) / 2
      | .max => frame.max.x
    y := match a.y with
      | .min => frame.min.y
      | .center => (frame.min.y + frame.max.y) / 2
      | .max => frame.max.y }

/-- Method `pos_in_rect_with_margin` of the `AnchorPoint` trait in
`lib.rs`. -/
def Align2.posInRectWithMargin (a : Align2) (frame : Rect) (margin : Vec2q) : Pos :=
  let signedMargin := mul_vec2 margin { x := -a.toSign.x, y := -a.toSign.y }
  Pos.add (a.posInRect frame) signedMargin

/-- Method `align_size_to_pos` of the `AnchorPoint` trait in `lib.rs`. -/
def Align2.alignSizeToPos (a : Align2) (anchorPos : Pos) (size : Vec2q) : Rect :=
  let centerPos :=
    Pos.add anchorPos
      (mul_vec2 { x := size.x * (1 / 2), y := size.y * (1 / 2) }
        { x := -a.toSign.x, y := -a.toSign.y })
  Rect.fromCenterSize centerPos size

/-- Method `offset_height` of the `AnchorPoint` trait in `lib.rs`. -/
def Align2.offsetHeight (a : Align2) (pos : Pos) (offset : ℚ) : Pos :=
  { pos with y := pos.y + -a.toSign.y * offset }

/-- Method `side` of the `AnchorPoint` trait in `lib.rs`. -/
def Align2.side (a : Align2) : ℚ := a.toSign.x

/-- Easing function `ease_in_cubic` in `lib.rs`. -/
def ease_in_cubic (x : ℚ) : ℚ := 1 - (1 - x) ^ 3

/-- Collection of toasts (`Toasts` in `lib.rs`). -/
structure Toasts where
  anchor : Align2
  default_options : ToastOptions
  toasts : List Toast
  margin : Vec2q
  spacing : ℚ
  padding : Vec2q
  reverse : Bool
  speed : ℚ
  held : Bool

/-- Constructor `Toasts::new` (also the `Default` impl). -/
def Toasts.new : Toasts :=
  { default_options := ToastOptions.default
    anchor := Align2.RIGHT_BOTTOM
    margin := { x := 8, y := 8 }
    toasts := []
    spacing := 8
    padding := { x := 10, y := 10 }
    held := false
    speed := 4
    reverse := false }

/-- Operation `Toasts::add`. -/
def Toasts.add (c : Toasts) (toast : Toast) : Toasts :=
  if c.reverse then { c with toasts := toast :: c.toasts }
  else { c with toasts := c.toasts ++ [toast] }

/-- Operation `Toasts::dismiss_oldest_toast`: dismisses the toast at index 0
when one exists. -/
def Toasts.dismiss_oldest_toast (c : Toasts) : Toasts :=
  match c.toasts with
  | [] => c
  | t :: ts => { c with toasts := t.dismiss :: ts }

/-- Helper: dismiss the last element of a list, if any (`Vec::last_mut`). -/
def dismissLast : List Toast → List Toast
  | [] => []
  | [t] => [t.dismiss]
  | t :: ts => t :: dismissLast ts

/-- Operation `Toasts::dismiss_latest_toast`: dismisses the last toast when
one exists. -/
def Toasts.dismiss_latest_toast (c : Toasts) : Toasts :=
  { c with toasts := dismissLast c.toasts }

/-- Operation `Toasts::dismiss_all_toasts`. -/
def Toasts.dismiss_all_toasts (c : Toasts) : Toasts :=
  { c with toasts := c.toasts.map Toast.dismiss }

/-- Glyph string drawn for a level (the `Display` impl for `ToastLevel`).
The glyphs for the four real levels are constants of the external icon-font
crate; they are modelled as fixed distinct strings.  The `None` level maps to
the empty string exactly as in the source. -/
def ToastLevel.iconText : ToastLevel → String
  | .info => "icon-info"
  | .warning => "icon-question"
  | .error => "icon-warning-diamond"
  | .success => "icon-check-circle"
  | .none => ""

/-- The close-cross glyph string (`"❌"` in `lib.rs`). -/
def crossText : String := "❌"

/-- Per-frame data supplied by the host (`egui::Context`):
the screen rectangle, the stable frame time, the pointer state, the text
measurement service (string and font size to a galley rectangle; galley
geometry does not depend on text color), and the keyed smoothed-value helper
`animate_value_with_time` (keyed by the toast's timestamp-derived id). -/
structure FrameInput where
  screen_rect : Rect
  stable_dt : ℚ
  primary_released : Bool
  hover_pos : Option Pos
  press_origin : Option Pos
  measure : String → ℚ → Rect
  animate_y : ℕ → ℚ → ℚ

/-- Result of draining one toast's channel. -/
structure DrainOut where
  toast : Toast
  dismiss : Option ℕ
deriving DecidableEq

/-- Channel drain of one toast at index `i` (lines 210–238 of `lib.rs`): one
non-blocking receive; a received record merges its present fields; a
disconnect either installs the fallback options or records the toast's index
in the frame's single dismissal slot, and in both disconnect cases the
subscription is dropped. -/
def drainStep (i : ℕ) (t : Toast) (dismiss : Option ℕ) : DrainOut :=
  match t.update_reciever with
  | Option.none => { toast := t, dismiss := dismiss }
  | some ch =>
    match ch.pending with
    | u :: rest =>
      { toast :=
          { t with
            caption := match u.caption with
              | some cap => cap
              | Option.none => t.caption
            fallback_options := match u.fallback_options with
              | some fo => some fo
              | Option.none => t.fallback_options
            options :=
              { t.options with
                level := match u.level with
                  | some l => l
                  | Option.none => t.options.level }
            update_reciever := some { pending := rest, connected := ch.connected } }
        dismiss := dismiss }
    | [] =>
      if ch.connected then
        { toast := t, dismiss := dismiss }
      else
        match t.fallback_options with
        | some fo =>
          { toast :=
              { t with
                options := fo
                fallback_options := Option.none
                update_reciever := Option.none }
            dismiss := dismiss }
        | Option.none =>
          { toast := { t with update_reciever := Option.none }, dismiss := some i }

/-- Duration tick of one toast (lines 240–246 of `lib.rs`): decrease the
remaining duration when the toast is idling and not hovered, requesting a
repaint. -/
def tickStep (dt : ℚ) (t : Toast) (repaint : Bool) : Toast × Bool :=
  match t.options.duration with
  | some (initial, d) =>
    if t.state.idling && !t.toast_hovered then
      ({ t with options := { t.options with duration := some (initial, d - dt) } }, true)
    else (t, repaint)
  | Option.none => (t, repaint)

/-- Number of lines of a caption (`chars().filter(|c| *c == '\n').count() + 1`
in `lib.rs`). -/
def lineCount (s : String) : ℕ :=
  (s.toList.filter (fun c => c = '\n')).length + 1

/-- Result of the measurement and placement chunk for one toast. -/
structure GeomOut where
  toast : Toast
  toastRect : Rect
  crossRect : Option Rect

/-- Measurement, size and rectangle computation for one toast (lines 248–338
and 396–406 of `lib.rs`): lays out the caption, the optional level icon and
the optional close cross, stores `width`/`height` on the toast, computes the
anchored toast rectangle with the horizontal entrance offset, and, for a
closable toast, the screen rectangle of the close cross. -/
def geomStep (cfg : Toasts) (input : FrameInput) (anchorPos : Pos) (t : Toast) : GeomOut :=
  let captionGalley := input.measure t.caption 16
  let captionWidth := captionGalley.width
  let captionHeight := captionGalley.height
  let iconWidth := captionHeight / (lineCount t.caption : ℚ)
  let iconGalley : Option Rect :=
    if t.options.level = ToastLevel.none then Option.none
    else some (input.measure t.options.level.iconText iconWidth)
  let actionHeight : ℚ := match iconGalley with
    | some g => g.height
    | Option.none => 0
  let crossGalley : Option Rect :=
    if t.options.closable then some (input.measure crossText iconWidth)
    else Option.none
  let crossWidth : ℚ := match crossGalley with
    | some g => g.width
    | Option.none => 0
  let crossHeight : ℚ := match crossGalley with
    | some g => g.height
    | Option.none => 0
  let iconXPaddingL : ℚ := 0
  let iconXPaddingR : ℚ := 7
  let crossXPaddingL : ℚ := 7
  let crossXPaddingR : ℚ := 0
  let iconWidthPadded : ℚ :=
    if iconWidth = 0 then 0 else iconWidth + iconXPaddingL + iconXPaddingR
  let crossWidthPadded : ℚ :=
    if crossWidth = 0 then 0 else crossWidth + crossXPaddingL + crossXPaddingR
  let t :=
    { t with
      width := iconWidthPadded + captionWidth + crossWidthPadded + cfg.padding.x * 2
      height := max (max actionHeight captionHeight) crossHeight + cfg.padding.y * 2 }
  let animOffset := t.width * (1 - ease_in_cubic t.value)
  let toastPosX := anchorPos.x + animOffset * cfg.anchor.side
  let toastPosY := input.animate_y t.timestamp anchorPos.y
  let toastRect :=
    cfg.anchor.alignSizeToPos { x := toastPosX, y := toastPosY }
      { x := t.width, y := t.height }
  let crossScreenRect : Option Rect :=
    match crossGalley with
    | some cg =>
      let oy := t.height / 2 - crossHeight / 2
      let ox := t.width - crossWidth - crossXPaddingR - cfg.padding.x
      let crossPos := Pos.add toastRect.min { x := ox, y := oy }
      some { min := crossPos, max := Pos.add crossPos { x := cg.max.x, y := cg.max.y } }
    | Option.none => Option.none
  { toast := t, toastRect := toastRect, crossRect := crossScreenRect }

/-- Result of hit testing one toast. -/
structure HitOut where
  toast : Toast
  held : Bool
  dismiss : Option ℕ

/-- Hit testing for one toast (lines 408–418 of `lib.rs`, inside the
close-cross block): refresh the hover flags from the hover position and, on a
press at the cross with the guard clear, record the toast's index and set the
guard. -/
def hitStep (input : FrameInput) (i : ℕ) (toastRect : Rect) (crossRect : Option Rect)
    (t : Toast) (held : Bool) (dismiss : Option ℕ) : HitOut :=
  match crossRect with
  | Option.none => { toast := t, held := held, dismiss := dismiss }
  | some cr =>
    let t :=
      match input.hover_pos with
      | some hp =>
        { t with
          toast_hovered := toastRect.containsPos hp
          cross_hovered := cr.containsPos hp }
      | Option.none => t
    match input.press_origin with
    | some cp =>
      if cr.containsPos cp && !held then
        { toast := t, held := true, dismiss := some i }
      else
        { toast := t, held := held, dismiss := dismiss }
    | Option.none => { toast := t, held := held, dismiss := dismiss }

/-- Animation advance for one toast (lines 424–440 of `lib.rs`): while
appearing, `value` grows by `dt * speed` and is clamped to `1` on the
transition to `Idle`; while disappearing, `value` shrinks by `dt * speed` and
the transition to `Disappeared` happens when `value ≤ 0`, with no clamp. -/
def animStep (speed dt : ℚ) (t : Toast) (repaint : Bool) : Toast × Bool :=
  if t.state.appearing then
    let v := t.value + dt * speed
    if 1 ≤ v then ({ t with value := 1, state := ToastState.Idle }, true)
    else ({ t with value := v }, true)
  else if t.state.disappearing then
    let v := t.value - dt * speed
    if v ≤ 0 then ({ t with value := v, state := ToastState.Disappeared }, true)
    else ({ t with value := v }, true)
  else (t, repaint)

/-- Result of processing one toast in the per-frame loop. -/
structure ProcOut where
  toast : Toast
  anchorPos : Pos
  held : Bool
  dismiss : Option ℕ
  repaint : Bool

/-- Body of the per-frame loop for the toast at index `i` (lines 208–441 of
`lib.rs`), in program order: channel drain, duration tick, measurement and
placement, hit testing, cursor advance by `spacing + height`, animation. -/
def processToast (cfg : Toasts) (input : FrameInput) (i : ℕ) (anchorPos : Pos)
    (held : Bool) (dismiss : Option ℕ) (repaint : Bool) (t : Toast) : ProcOut :=
  let d0 := drainStep i t dismiss
  let tick := tickStep input.stable_dt d0.toast repaint
  let g := geomStep cfg input anchorPos tick.1
  let h := hitStep input i g.toastRect g.crossRect g.toast held d0.dismiss
  let anchorPos' := cfg.anchor.offsetHeight anchorPos (cfg.spacing + h.toast.height)
  let anim := animStep cfg.speed input.stable_dt h.toast tick.2
  { toast := anim.1
    anchorPos := anchorPos'
    held := h.held
    dismiss := h.dismiss
    repaint := anim.2 }

/-- Accumulated result of the per-frame loop. -/
structure LoopOut where
  toasts : List Toast
  anchorPos : Pos
  held : Bool
  dismiss : Option ℕ
  repaint : Bool

/-- The per-frame loop over the toast sequence, threading the layout cursor,
the press guard, the single dismissal slot and the repaint flag. -/
def showLoop (cfg : Toasts) (input : FrameInput) :
    List Toast → ℕ → Pos → Bool → Option ℕ → Bool → LoopOut
  | [], _, a, h, d, r =>
    { toasts := [], anchorPos := a, held := h, dismiss := d, repaint := r }
  | t :: ts, i, a, h, d, r =>
    let p := processToast cfg input i a h d r t
    let rest := showLoop cfg input ts (i + 1) p.anchorPos p.held p.dismiss p.repaint
    { rest with toasts := p.toast :: rest.toasts }

/-- Dismissal of the toast at a given index (`self.toasts[i].dismiss()`);
within `showFrame` the recorded index is always in bounds. -/
def dismissAt : List Toast → ℕ → List Toast
  | [], _ => []
  | t :: ts, 0 => t.dismiss :: ts
  | t :: ts, n + 1 => t :: dismissAt ts n

/-- End-of-frame application of the recorded dismissal slot (lines 447–449 of
`lib.rs`). -/
def applyDismiss (ts : List Toast) : Option ℕ → List Toast
  | Option.none => ts
  | some i => dismissAt ts i

/-- Garbage collection at the start of a frame (line 189 of `lib.rs`):
remove every `Disappeared` toast. -/
def gcStep (ts : List Toast) : List Toast :=
  ts.filter (fun t => !t.state.disappeared)

/-- Expiry pass at the start of a frame (lines 191–198 of `lib.rs`): any
toast whose remaining duration is `≤ 0` is put in the `Disapper` state,
whatever its current state; the check reads no pointer state. -/
def expireStep (ts : List Toast) : List Toast :=
  ts.map fun t =>
    match t.options.duration with
    | some (_, d) => if d ≤ 0 then { t with state := ToastState.Disapper } else t
    | Option.none => t

/-- The per-frame entry point `Toasts::show`, returning the updated
collection and the repaint request flag, with all steps in program order:
garbage collection, expiry, press-guard reset on release, the loop, and the
end-of-frame dismissal. -/
def Toasts.showFrame (c : Toasts) (input : FrameInput) : Toasts × Bool :=
  let anchor0 := c.anchor.posInRectWithMargin input.screen_rect c.margin
  let ts1 := expireStep (gcStep c.toasts)
  let held0 := if input.primary_released then false else c.held
  let L := showLoop c input ts1 0 anchor0 held0 Option.none false
  ({ c with toasts := applyDismiss L.toasts L.dismiss, held := L.held }, L.repaint)

/-- Hypothesis that a toast's channel, if it still has one, is not reporting
disconnection this frame: there is either a pending message or a live
sender. -/
def noDisconnect (t : Toast) : Prop :=
  ∀ ch, t.update_reciever = some ch → ch.pending ≠ [] ∨ ch.connected = true

/-- Toast and repaint flag after the drain and tick stages of the loop
body. -/
def stage1 (input : FrameInput) (i : ℕ) (d : Option ℕ) (r : Bool) (t : Toast) : Toast × Bool :=
  tickStep input.stable_dt (drainStep i t d).toast r

/-- Geometry stage of the loop body, applied after drain and tick. -/
def stageGeom (cfg : Toasts) (input : FrameInput) (i : ℕ) (a : Pos) (d : Option ℕ)
    (r : Bool) (t : Toast) : GeomOut :=
  geomStep cfg input a (stage1 input i d r t).1

/-- Hit-testing stage of the loop body, applied after the geometry stage. -/
def stageHit (cfg : Toasts) (input : FrameInput) (i : ℕ) (a : Pos) (held : Bool)
    (d : Option ℕ) (r : Bool) (t : Toast) : HitOut :=
  hitStep input i (stageGeom cfg input i a d r t).toastRect
    (stageGeom cfg input i a d r t).crossRect
    (stageGeom cfg input i a d r t).toast held (drainStep i t d).dismiss

/-- The loop part of `Toasts::show`, with the initial cursor, guard and slot
values used by `showFrame`. -/
def frameLoop (c : Toasts) (input : FrameInput) : LoopOut :=
  showLoop c input (expireStep (gcStep c.toasts)) 0
    (c.anchor.posInRectWithMargin input.screen_rect c.margin)
    (if input.primary_released then false else c.held) Option.none false

/-- Number of positions at which two toast lists differ (zip-wise). -/
def diffCount : List Toast → List Toast → ℕ
  | [], _ => 0
  | _, [] => 0
  | a :: as, b :: bs => (if a = b then 0 else 1) + diffCount as bs

/-- Iterated per-frame animation update (a fold of `animStep` over a list of
frame times). -/
def animRun (speed : ℚ) (dts : List ℚ) (t : Toast) : Toast :=
  dts.foldl (fun t dt => (animStep speed dt t false).1) t

/-- Transition relation allowed by the claim's wording: the state moves
forward along `Appearing → Idle → Disappearing → Disappeared`, or a
non-terminal state jumps to `Disappearing`.  (Definition written from the
claim, for comparison with the code.) -/
def specAllowedTransition (s s' : ToastState) : Bool :=
  decide (s.rank ≤ s'.rank) ||
    (decide (s ≠ ToastState.Disappeared) && decide (s' = ToastState.Disapper))

/-- Measurement service returning a 10×10 galley for every string and font
size; a concrete instance of the host text-measurement contract. -/
def measureTen : String → ℚ → Rect :=
  fun _ _ => { min := { x := 0, y := 0 }, max := { x := 10, y := 10 } }

/-- Concrete frame input: 800×600 screen, 1/60 s frame, no pointer
activity, identity vertical smoothing. -/
def inputBasic : FrameInput :=
  { screen_rect := { min := { x := 0, y := 0 }, max := { x := 800, y := 600 } }
    stable_dt := 1 / 60
    primary_released := false
    hover_pos := Option.none
    press_origin := Option.none
    measure := measureTen
    animate_y := fun _ y => y }

/-- Frame input with a one-second frame time. -/
def inputDt1 : FrameInput := { inputBasic with stable_dt := 1 }

/-- Hover point used by the C9 analysis. -/
def pHover : Pos := { x := 760, y := 580 }

/-- Frame input with the pointer hovering at `pHover`. -/
def inputHover : FrameInput := { inputBasic with hover_pos := some pHover }

/-- Frame input with a press originating at `(5, 5)`. -/
def inputPress : FrameInput :=
  { inputBasic with press_origin := some { x := 5, y := 5 } }

/-- Concrete disappearing toast: `value = 1`, no duration, not closable, no
subscription. -/
def tC2 : Toast :=
  { caption := "x"
    options := { duration := Option.none, level := ToastLevel.none, closable := false,
                 show_progress_bar := false }
    original_options := ToastOptions.default
    fallback_options := Option.none
    height := 34
    width := 180
    toast_hovered := false
    cross_hovered := false
    timestamp := 0
    update_reciever := Option.none
    state := ToastState.Disapper
    value := 1 }

/-- Singleton collection around `tC2`. -/
def cC2 : Toasts := { Toasts.new with toasts := [tC2] }

/-- The toast `tC2` after one `inputBasic` frame: layout recomputed from the
10×10 galley, `value` decreased by `(1/60) * 4`. -/
def tOutC2 : Toast := { tC2 with width := 47, height := 30, value := 14 / 15 }

/-- A concrete toast already in the terminal `Disappeared` state. -/
def tDead : Toast := { tC2 with state := ToastState.Disappeared }

/-- Appearing toast used by the C1 witness. -/
def tApp : Toast := Toast.basic "w" 1

/-- Disappearing toast with `value = 1/2`, and its collection, used to
exhibit the missing lower clamp. -/
def tCex : Toast := { tC2 with value := 1 / 2 }

/-- Collection around `tCex`. -/
def cC1 : Toasts := { Toasts.new with toasts := [tCex] }

/-- Subscribed toast whose producer has disconnected with no fallback
options, in `Idle` (as a channel-bound toast is after appearing). -/
def tD0 : Toast :=
  { tC2 with
    state := ToastState.Idle
    update_reciever := some { pending := [], connected := false } }

/-- Collection holding two such disconnected toasts. -/
def cC3 : Toasts := { Toasts.new with toasts := [tD0, { tD0 with timestamp := 1 }] }

/-- Fallback options used by the C3 witness. -/
def foX : ToastOptions :=
  { duration := some (2, 2), level := ToastLevel.warning, closable := true,
    show_progress_bar := true }

/-- Disconnected subscribed toast carrying fallback options `foX`. -/
def tFB : Toast :=
  { tC2 with
    update_reciever := some { pending := [], connected := false }
    fallback_options := some foX }

/-- Disconnected subscribed toast with no fallback options. -/
def tNB : Toast :=
  { tC2 with update_reciever := some { pending := [], connected := false } }

/-- An arbitrary cursor position for loop-body instances. -/
def aPos0 : Pos := { x := 0, y := 0 }

/-- A 10×10 rectangle at the origin. -/
def rectTen : Rect := { min := { x := 0, y := 0 }, max := { x := 10, y := 10 } }

/-- Caption-only update record. -/
def u1C6 : ToastUpdate :=
  { caption := some "new", level := Option.none, fallback_options := Option.none,
    use_original_options := false }

/-- Level-only update record, left queued behind `u1C6`. -/
def u2C6 : ToastUpdate :=
  { caption := Option.none, level := some ToastLevel.error,
    fallback_options := Option.none, use_original_options := false }

/-- Subscribed toast with the two updates pending. -/
def tSub : Toast :=
  { tC2 with update_reciever := some { pending := [u1C6, u2C6], connected := true } }

/-- Idle toast with an expired duration `(3, 0)`. -/
def tC7 : Toast :=
  { tC2 with
    state := ToastState.Idle
    options := { duration := some (3, 0), level := ToastLevel.none, closable := false,
                 show_progress_bar := false } }

/-- Collection around `tC7`. -/
def cC7 : Toasts := { Toasts.new with toasts := [tC7] }

/-- Idle, non-closable, unsubscribed toast used by the C9 analysis. -/
def tC9 : Toast := { tC2 with state := ToastState.Idle }

/-- Collection around `tC9`. -/
def cC9 : Toasts := { Toasts.new with toasts := [tC9] }

lemma drainStep_toast_core (i : ℕ) (t : Toast) (d : Option ℕ) :
    (drainStep i t d).toast.state = t.state ∧
    (drainStep i t d).toast.value = t.value ∧
    (drainStep i t d).toast.toast_hovered = t.toast_hovered ∧
    (drainStep i t d).toast.cross_hovered = t.cross_hovered ∧
    (drainStep i t d).toast.width = t.width ∧
    (drainStep i t d).toast.height = t.height ∧
    (drainStep i t d).toast.timestamp = t.timestamp := by
  obtain ⟨cap, opts, oo, fo, hh, ww, thov, chov, tstamp, ur, st, v⟩ := t
  rcases ur with _ | ⟨pending, connected⟩
  · simp [drainStep]
  · rcases pending with _ | ⟨u, rest⟩
    · cases connected <;> rcases fo with _ | fo' <;> simp [drainStep]
    · simp [drainStep]

lemma drainStep_dismiss_of_noDisconnect (i : ℕ) (t : Toast) (d : Option ℕ)
    (h : noDisconnect t) : (drainStep i t d).dismiss = d := by
  obtain ⟨cap, opts, oo, fo, hh, ww, thov, chov, tstamp, ur, st, v⟩ := t
  rcases ur with _ | ⟨pending, connected⟩
  · simp [drainStep]
  · rcases pending with _ | ⟨u, rest⟩
    · rcases h { pending := [], connected := connected } rfl with hp | hc
      · exact absurd rfl hp
      · subst hc
        rcases fo with _ | fo' <;> simp [drainStep]
    · simp [drainStep]

lemma tickStep_toast_core (dt : ℚ) (t : Toast) (r : Bool) :
    (tickStep dt t r).1.state = t.state ∧
    (tickStep dt t r).1.value = t.value ∧
    (tickStep dt t r).1.toast_hovered = t.toast_hovered ∧
    (tickStep dt t r).1.cross_hovered = t.cross_hovered ∧
    (tickStep dt t r).1.caption = t.caption ∧
    (tickStep dt t r).1.options.closable = t.options.closable ∧
    (tickStep dt t r).1.options.level = t.options.level ∧
    (tickStep dt t r).1.timestamp = t.timestamp := by
  obtain ⟨cap, opts, oo, fo, hh, ww, thov, chov, tstamp, ur, st, v⟩ := t
  obtain ⟨dur, lvl, cl, spb⟩ := opts
  rcases dur with _ | ⟨initial, dcur⟩
  · simp [tickStep]
  · simp only [tickStep]
    split_ifs <;> simp

lemma geomStep_toast_core (cfg : Toasts) (input : FrameInput) (a : Pos) (t : Toast) :
    (geomStep cfg input a t).toast.state = t.state ∧
    (geomStep cfg input a t).toast.value = t.value ∧
    (geomStep cfg input a t).toast.toast_hovered = t.toast_hovered ∧
    (geomStep cfg input a t).toast.cross_hovered = t.cross_hovered ∧
    (geomStep cfg input a t).toast.caption = t.caption ∧
    (geomStep cfg input a t).toast.options = t.options := by
  exact ⟨rfl, rfl, rfl, rfl, rfl, rfl⟩

lemma geomStep_crossRect_none (cfg : Toasts) (input : FrameInput) (a : Pos) (t : Toast)
    (h : t.options.closable = false) : (geomStep cfg input a t).crossRect = Option.none := by
  simp [geomStep, h]

lemma geomStep_crossRect_some (cfg : Toasts) (input : FrameInput) (a : Pos) (t : Toast)
    (h : t.options.closable = true) :
    ∃ cr, (geomStep cfg input a t).crossRect = some cr := by
  simp [geomStep, h]

lemma hitStep_none (input : FrameInput) (i : ℕ) (tr : Rect) (t : Toast)
    (held : Bool) (d : Option ℕ) :
    hitStep input i tr Option.none t held d = { toast := t, held := held, dismiss := d } :=
  rfl

lemma hitStep_toast_core (input : FrameInput) (i : ℕ) (tr : Rect) (cr : Option Rect)
    (t : Toast) (held : Bool) (d : Option ℕ) :
    (hitStep input i tr cr t held d).toast.state = t.state ∧
    (hitStep input i tr cr t held d).toast.value = t.value ∧
    (hitStep input i tr cr t held d).toast.caption = t.caption ∧
    (hitStep input i tr cr t held d).toast.options = t.options := by
  rcases cr with _ | cr'
  · simp [hitStep]
  · cases h1 : input.hover_pos <;> cases h2 : input.press_origin <;>
      simp only [hitStep, h1, h2] <;> (try split_ifs) <;> simp

lemma hitStep_held_true (input : FrameInput) (i : ℕ) (tr : Rect) (cr : Option Rect)
    (t : Toast) (d : Option ℕ) :
    (hitStep input i tr cr t true d).held = true ∧
    (hitStep input i tr cr t true d).dismiss = d := by
  rcases cr with _ | cr'
  · simp [hitStep]
  · cases h1 : input.hover_pos <;> cases h2 : input.press_origin <;>
      simp only [hitStep, h1, h2] <;> (try split_ifs) <;> simp_all

lemma hitStep_held_mono (input : FrameInput) (i : ℕ) (tr : Rect) (cr : Option Rect)
    (t : Toast) (held : Bool) (d : Option ℕ) (h : held = true) :
    (hitStep input i tr cr t held d).held = true := by
  subst h
  exact (hitStep_held_true input i tr cr t d).1

lemma animStep_toast_core (speed dt : ℚ) (t : Toast) (r : Bool) :
    (animStep speed dt t r).1.toast_hovered = t.toast_hovered ∧
    (animStep speed dt t r).1.cross_hovered = t.cross_hovered ∧
    (animStep speed dt t r).1.caption = t.caption ∧
    (animStep speed dt t r).1.options = t.options := by
  obtain ⟨cap, opts, oo, fo, hh, ww, thov, chov, tstamp, ur, st, v⟩ := t
  cases st <;>
    simp [animStep, ToastState.appearing, ToastState.disappearing] <;>
    split_ifs <;> simp

lemma animStep_rank (speed dt : ℚ) (t : Toast) (r : Bool) :
    t.state.rank ≤ (animStep speed dt t r).1.state.rank := by
  obtain ⟨cap, opts, oo, fo, hh, ww, thov, chov, tstamp, ur, st, v⟩ := t
  cases st <;>
    simp [animStep, ToastState.appearing, ToastState.disappearing] <;>
    split_ifs <;> simp [ToastState.rank]

lemma animStep_value_le_one (speed dt : ℚ) (t : Toast) (r : Bool)
    (hdt : 0 ≤ dt) (hsp : 0 ≤ speed) (hv : t.value ≤ 1) :
    (animStep speed dt t r).1.value ≤ 1 := by
  obtain ⟨cap, opts, oo, fo, hh, ww, thov, chov, tstamp, ur, st, v⟩ := t
  simp only at hv
  cases st <;>
    simp [animStep, ToastState.appearing, ToastState.disappearing] <;>
    (try split_ifs with h1) <;>
    simp_all <;> nlinarith [mul_nonneg hdt hsp]

lemma animStep_disapper (speed dt : ℚ) (t : Toast) (r : Bool)
    (h : t.state = ToastState.Disapper) :
    (animStep speed dt t r).1.state = ToastState.Disapper ∨
      (animStep speed dt t r).1.state = ToastState.Disappeared := by
  obtain ⟨cap, opts, oo, fo, hh, ww, thov, chov, tstamp, ur, st, v⟩ := t
  simp only at h
  subst h
  simp [animStep, ToastState.appearing, ToastState.disappearing]
  split_ifs <;> simp

lemma drainStep_state (i : ℕ) (t : Toast) (d : Option ℕ) :
    (drainStep i t d).toast.state = t.state := (drainStep_toast_core i t d).1

lemma drainStep_value (i : ℕ) (t : Toast) (d : Option ℕ) :
    (drainStep i t d).toast.value = t.value := (drainStep_toast_core i t d).2.1

lemma tickStep_state (dt : ℚ) (t : Toast) (r : Bool) :
    (tickStep dt t r).1.state = t.state := (tickStep_toast_core dt t r).1

lemma tickStep_value (dt : ℚ) (t : Toast) (r : Bool) :
    (tickStep dt t r).1.value = t.value := (tickStep_toast_core dt t r).2.1

lemma geomStep_state (cfg : Toasts) (input : FrameInput) (a : Pos) (t : Toast) :
    (geomStep cfg input a t).toast.state = t.state := rfl

lemma geomStep_value (cfg : Toasts) (input : FrameInput) (a : Pos) (t : Toast) :
    (geomStep cfg input a t).toast.value = t.value := rfl

lemma hitStep_state (input : FrameInput) (i : ℕ) (tr : Rect) (cr : Option Rect)
    (t : Toast) (held : Bool) (d : Option ℕ) :
    (hitStep input i tr cr t held d).toast.state = t.state :=
  (hitStep_toast_core input i tr cr t held d).1

lemma hitStep_value (input : FrameInput) (i : ℕ) (tr : Rect) (cr : Option Rect)
    (t : Toast) (held : Bool) (d : Option ℕ) :
    (hitStep input i tr cr t held d).toast.value = t.value :=
  (hitStep_toast_core input i tr cr t held d).2.1

lemma processToast_eq (cfg : Toasts) (input : FrameInput) (i : ℕ) (a : Pos)
    (held : Bool) (d : Option ℕ) (r : Bool) (t : Toast) :
    processToast cfg input i a held d r t =
      { toast := (animStep cfg.speed input.stable_dt
            (stageHit cfg input i a held d r t).toast (stage1 input i d r t).2).1
        anchorPos := cfg.anchor.offsetHeight a
            (cfg.spacing + (stageHit cfg input i a held d r t).toast.height)
        held := (stageHit cfg input i a held d r t).held
        dismiss := (stageHit cfg input i a held d r t).dismiss
        repaint := (animStep cfg.speed input.stable_dt
            (stageHit cfg input i a held d r t).toast (stage1 input i d r t).2).2 } := rfl

lemma stageHit_state (cfg : Toasts) (input : FrameInput) (i : ℕ) (a : Pos)
    (held : Bool) (d : Option ℕ) (r : Bool) (t : Toast) :
    (stageHit cfg input i a held d r t).toast.state = t.state := by
  unfold stageHit stageGeom stage1
  rw [hitStep_state, geomStep_state, tickStep_state, drainStep_state]

lemma stageHit_value (cfg : Toasts) (input : FrameInput) (i : ℕ) (a : Pos)
    (held : Bool) (d : Option ℕ) (r : Bool) (t : Toast) :
    (stageHit cfg input i a held d r t).toast.value = t.value := by
  unfold stageHit stageGeom stage1
  rw [hitStep_value, geomStep_value, tickStep_value, drainStep_value]

lemma processToast_state_rank (cfg : Toasts) (input : FrameInput) (i : ℕ) (a : Pos)
    (held : Bool) (d : Option ℕ) (r : Bool) (t : Toast) :
    t.state.rank ≤ (processToast cfg input i a held d r t).toast.state.rank := by
  rw [processToast_eq]
  have h := animStep_rank cfg.speed input.stable_dt
    (stageHit cfg input i a held d r t).toast (stage1 input i d r t).2
  rwa [stageHit_state] at h

lemma processToast_value_le_one (cfg : Toasts) (input : FrameInput) (i : ℕ) (a : Pos)
    (held : Bool) (d : Option ℕ) (r : Bool) (t : Toast)
    (hdt : 0 ≤ input.stable_dt) (hsp : 0 ≤ cfg.speed) (hv : t.value ≤ 1) :
    (processToast cfg input i a held d r t).toast.value ≤ 1 := by
  rw [processToast_eq]
  refine animStep_value_le_one cfg.speed input.stable_dt
    (stageHit cfg input i a held d r t).toast (stage1 input i d r t).2 hdt hsp ?_
  rwa [stageHit_value]

lemma processToast_disapper (cfg : Toasts) (input : FrameInput) (i : ℕ) (a : Pos)
    (held : Bool) (d : Option ℕ) (r : Bool) (t : Toast)
    (h : t.state = ToastState.Disapper) :
    (processToast cfg input i a held d r t).toast.state = ToastState.Disapper ∨
      (processToast cfg input i a held d r t).toast.state = ToastState.Disappeared := by
  rw [processToast_eq]
  exact animStep_disapper cfg.speed input.stable_dt
    (stageHit cfg input i a held d r t).toast (stage1 input i d r t).2
    (by rw [stageHit_state]; exact h)

lemma processToast_held_true (cfg : Toasts) (input : FrameInput) (i : ℕ) (a : Pos)
    (d : Option ℕ) (r : Bool) (t : Toast) :
    (processToast cfg input i a true d r t).held = true := by
  rw [processToast_eq]
  exact (hitStep_held_true input i _ _ _ _).1

lemma processToast_dismiss_held_true (cfg : Toasts) (input : FrameInput) (i : ℕ)
    (a : Pos) (d : Option ℕ) (r : Bool) (t : Toast) (hnd : noDisconnect t) :
    (processToast cfg input i a true d r t).dismiss = d := by
  rw [processToast_eq]
  have h1 := (hitStep_held_true input i (stageGeom cfg input i a d r t).toastRect
    (stageGeom cfg input i a d r t).crossRect (stageGeom cfg input i a d r t).toast
    (drainStep i t d).dismiss).2
  unfold stageHit
  rw [h1]
  exact drainStep_dismiss_of_noDisconnect i t d hnd

lemma showLoop_length (cfg : Toasts) (input : FrameInput) :
    ∀ (ts : List Toast) (i : ℕ) (a : Pos) (h : Bool) (d : Option ℕ) (r : Bool),
      ((showLoop cfg input ts i a h d r).toasts).length = ts.length := by
  intro ts
  induction ts with
  | nil => intro i a h d r; rfl
  | cons x xs ih => intro i a h d r; simp [showLoop, ih]

lemma showLoop_get? (cfg : Toasts) (input : FrameInput) :
    ∀ (ts : List Toast) (i : ℕ) (a : Pos) (hld : Bool) (d : Option ℕ) (r : Bool)
      (j : ℕ) (t : Toast), ts[j]? = some t →
      ∃ a' hld' d' r', ((showLoop cfg input ts i a hld d r).toasts)[j]? =
        some (processToast cfg input (i + j) a' hld' d' r' t).toast := by
  intro ts
  induction ts with
  | nil => intro i a hld d r j t ht; simp at ht
  | cons x xs ih =>
    intro i a hld d r j t ht
    cases j with
    | zero =>
      simp only [List.getElem?_cons_zero, Option.some.injEq] at ht
      subst ht
      exact ⟨a, hld, d, r, by simp [showLoop]⟩
    | succ j' =>
      simp only [List.getElem?_cons_succ] at ht
      obtain ⟨a', hld', d', r', hh⟩ := ih (i + 1)
        (processToast cfg input i a hld d r x).anchorPos
        (processToast cfg input i a hld d r x).held
        (processToast cfg input i a hld d r x).dismiss
        (processToast cfg input i a hld d r x).repaint j' t ht
      refine ⟨a', hld', d', r', ?_⟩
      simp only [showLoop, List.getElem?_cons_succ]
      rw [show i + (j' + 1) = i + 1 + j' by omega]
      exact hh

lemma mem_showLoop (cfg : Toasts) (input : FrameInput) :
    ∀ (ts : List Toast) (i : ℕ) (a : Pos) (hld : Bool) (d : Option ℕ) (r : Bool)
      (t' : Toast), t' ∈ (showLoop cfg input ts i a hld d r).toasts →
      ∃ t ∈ ts, ∃ i' a' hld' d' r',
        t' = (processToast cfg input i' a' hld' d' r' t).toast := by
  intro ts
  induction ts with
  | nil => intro i a hld d r t' h; simp [showLoop] at h
  | cons x xs ih =>
    intro i a hld d r t' h
    simp only [showLoop, List.mem_cons] at h
    rcases h with h | h
    · exact ⟨x, by simp, i, a, hld, d, r, h⟩
    · obtain ⟨t, htmem, i', a', hld', d', r', he⟩ := ih _ _ _ _ _ t' h
      exact ⟨t, by simp [htmem], i', a', hld', d', r', he⟩

lemma showLoop_held_true (cfg : Toasts) (input : FrameInput) :
    ∀ (ts : List Toast) (i : ℕ) (a : Pos) (d : Option ℕ) (r : Bool),
      (showLoop cfg input ts i a true d r).held = true := by
  intro ts
  induction ts with
  | nil => intro i a d r; rfl
  | cons x xs ih =>
    intro i a d r
    simp only [showLoop]
    rw [processToast_held_true]
    exact ih _ _ _ _

lemma dismissAt_get? :
    ∀ (ts : List Toast) (n j : ℕ) (t : Toast), ts[j]? = some t →
      ∃ t', (dismissAt ts n)[j]? = some t' ∧ (t' = t ∨ t' = t.dismiss) := by
  intro ts
  induction ts with
  | nil => intro n j t ht; simp at ht
  | cons x xs ih =>
    intro n j t ht
    cases n with
    | zero =>
      cases j with
      | zero =>
        simp only [List.getElem?_cons_zero, Option.some.injEq] at ht
        subst ht
        exact ⟨x.dismiss, by simp [dismissAt], Or.inr rfl⟩
      | succ j' =>
        simp only [List.getElem?_cons_succ] at ht
        exact ⟨t, by simp [dismissAt, ht], Or.inl rfl⟩
    | succ n' =>
      cases j with
      | zero =>
        simp only [List.getElem?_cons_zero, Option.some.injEq] at ht
        subst ht
        exact ⟨x, by simp [dismissAt], Or.inl rfl⟩
      | succ j' =>
        simp only [List.getElem?_cons_succ] at ht
        obtain ⟨t', h1, h2⟩ := ih n' j' t ht
        exact ⟨t', by simpa [dismissAt] using h1, h2⟩

lemma applyDismiss_get? (ts : List Toast) (o : Option ℕ) (j : ℕ) (t : Toast)
    (ht : ts[j]? = some t) :
    ∃ t', (applyDismiss ts o)[j]? = some t' ∧ (t' = t ∨ t' = t.dismiss) := by
  cases o with
  | none => exact ⟨t, ht, Or.inl rfl⟩
  | some n => exact dismissAt_get? ts n j t ht

lemma mem_dismissAt :
    ∀ (ts : List Toast) (n : ℕ) (t' : Toast), t' ∈ dismissAt ts n →
      ∃ t ∈ ts, t' = t ∨ t' = t.dismiss := by
  intro ts
  induction ts with
  | nil => intro n t' h; simp [dismissAt] at h
  | cons x xs ih =>
    intro n t' h
    cases n with
    | zero =>
      simp only [dismissAt, List.mem_cons] at h
      rcases h with h | h
      · exact ⟨x, by simp, Or.inr h⟩
      · exact ⟨t', by simp [h], Or.inl rfl⟩
    | succ n' =>
      simp only [dismissAt, List.mem_cons] at h
      rcases h with h | h
      · exact ⟨x, by simp, Or.inl h⟩
      · obtain ⟨t, htm, ho⟩ := ih n' t' h
        exact ⟨t, by simp [htm], ho⟩

lemma mem_applyDismiss (ts : List Toast) (o : Option ℕ) (t' : Toast)
    (h : t' ∈ applyDismiss ts o) : ∃ t ∈ ts, t' = t ∨ t' = t.dismiss := by
  cases o with
  | none => exact ⟨t', h, Or.inl rfl⟩
  | some n => exact mem_dismissAt ts n t' h

lemma diffCount_self : ∀ ts : List Toast, diffCount ts ts = 0 := by
  intro ts
  induction ts with
  | nil => rfl
  | cons x xs ih => simp [diffCount, ih]

lemma diffCount_dismissAt : ∀ (ts : List Toast) (n : ℕ), diffCount ts (dismissAt ts n) ≤ 1 := by
  intro ts
  induction ts with
  | nil => intro n; simp [dismissAt, diffCount]
  | cons x xs ih =>
    intro n
    cases n with
    | zero =>
      simp only [dismissAt, diffCount, diffCount_self]
      split_ifs <;> simp
    | succ n' =>
      simp only [dismissAt, diffCount]
      simpa using ih n'

lemma showFrame_eq (c : Toasts) (input : FrameInput) :
    c.showFrame input =
      ({ c with
          toasts := applyDismiss (frameLoop c input).toasts (frameLoop c input).dismiss
          held := (frameLoop c input).held },
        (frameLoop c input).repaint) := rfl

lemma showFrame_get (c : Toasts) (input : FrameInput) (j : ℕ) (te : Toast)
    (h : (expireStep (gcStep c.toasts))[j]? = some te) :
    ∃ a' hld' d' r' o,
      ((c.showFrame input).1.toasts)[j]? = some o ∧
      (o = (processToast c input j a' hld' d' r' te).toast ∨
        o = (processToast c input j a' hld' d' r' te).toast.dismiss) := by
  obtain ⟨a', hld', d', r', hl⟩ := showLoop_get? c input (expireStep (gcStep c.toasts)) 0
    (c.anchor.posInRectWithMargin input.screen_rect c.margin)
    (if input.primary_released then false else c.held) Option.none false j te h
  rw [Nat.zero_add] at hl
  obtain ⟨o, ho, hor⟩ := applyDismiss_get? (frameLoop c input).toasts
    (frameLoop c input).dismiss j _ hl
  exact ⟨a', hld', d', r', o, by rw [showFrame_eq]; exact ho, hor⟩

lemma expireFn_cases (t : Toast) :
    (expireStep [t]).head? = some t ∨
      (expireStep [t]).head? = some { t with state := ToastState.Disapper } := by
  simp only [expireStep, List.map_cons, List.map_nil, List.head?_cons]
  rcases t.options.duration with _ | ⟨a, d⟩
  · exact Or.inl rfl
  · by_cases hd : d ≤ 0
    · right
      simp [hd]
    · left
      simp [hd]

lemma expireStep_get? (ts : List Toast) (j : ℕ) (t : Toast) (h : ts[j]? = some t) :
    (expireStep ts)[j]? =
      some (match t.options.duration with
        | some (_, d) => if d ≤ 0 then { t with state := ToastState.Disapper } else t
        | Option.none => t) := by
  simp [expireStep, h]

lemma expireFn_state_rank (t : Toast) (hne : t.state ≠ ToastState.Disappeared)
    (te : Toast)
    (hte : te = (match t.options.duration with
      | some (_, d) => if d ≤ 0 then { t with state := ToastState.Disapper } else t
      | Option.none => t)) :
    t.state.rank ≤ te.state.rank ∧ te.value = t.value := by
  subst hte
  rcases t.options.duration with _ | ⟨a, d⟩
  · simp
  · by_cases hd : d ≤ 0
    · constructor
      · simp only [hd, if_true]
        cases hs : t.state <;> simp [ToastState.rank]
        exact absurd hs hne
      · simp [hd]
    · simp [hd]

lemma animStep_appear (speed dt : ℚ) (t : Toast) (r : Bool)
    (h : t.state = ToastState.Appear) :
    (1 ≤ t.value + dt * speed →
      (animStep speed dt t r).1.value = 1 ∧
      (animStep speed dt t r).1.state = ToastState.Idle) ∧
    (¬ 1 ≤ t.value + dt * speed →
      (animStep speed dt t r).1.value = t.value + dt * speed ∧
      (animStep speed dt t r).1.state = ToastState.Appear) := by
  obtain ⟨cap, opts, oo, fo, hh, ww, thov, chov, tstamp, ur, st, v⟩ := t
  simp only at h
  subst h
  constructor <;> intro hge <;>
    simp [animStep, ToastState.appearing, hge]

lemma animStep_disapper_val (speed dt : ℚ) (t : Toast) (r : Bool)
    (h : t.state = ToastState.Disapper) :
    (animStep speed dt t r).1.value = t.value - dt * speed ∧
    (t.value - dt * speed ≤ 0 →
      (animStep speed dt t r).1.state = ToastState.Disappeared) ∧
    (0 < t.value - dt * speed →
      (animStep speed dt t r).1.state = ToastState.Disapper) := by
  obtain ⟨cap, opts, oo, fo, hh, ww, thov, chov, tstamp, ur, st, v⟩ := t
  simp only at h
  subst h
  refine ⟨?_, ?_, ?_⟩
  · by_cases hle : v - dt * speed ≤ 0 <;>
      simp [animStep, ToastState.appearing, ToastState.disappearing, hle]
  · intro hle
    simp [animStep, ToastState.appearing, ToastState.disappearing, hle]
  · intro hlt
    have hle : ¬ v - dt * speed ≤ 0 := by linarith
    simp [animStep, ToastState.appearing, ToastState.disappearing, hle]

lemma animStep_other (speed dt : ℚ) (t : Toast) (r : Bool)
    (h1 : t.state ≠ ToastState.Appear) (h2 : t.state ≠ ToastState.Disapper) :
    (animStep speed dt t r).1 = t := by
  obtain ⟨cap, opts, oo, fo, hh, ww, thov, chov, tstamp, ur, st, v⟩ := t
  simp only at h1 h2
  cases st <;>
    simp_all [animStep, ToastState.appearing, ToastState.disappearing]

lemma dismiss_value (t : Toast) : (t.dismiss).value = t.value := rfl

lemma animRun_reaches :
    ∀ (dts : List ℚ) (t : Toast), (∀ dt ∈ dts, 0 ≤ dt) →
      ((t.state = ToastState.Appear ∧ 0 ≤ t.value ∧ t.value < 1 ∧
          1 ≤ t.value + 4 * dts.sum) ∨
        (t.state = ToastState.Idle ∧ t.value = 1)) →
      (animRun 4 dts t).state = ToastState.Idle ∧ (animRun 4 dts t).value = 1 := by
  intro dts
  induction dts with
  | nil =>
    intro t hnn hinv
    rcases hinv with ⟨hs, h0, h1, hsum⟩ | ⟨hs, hv⟩
    · simp only [List.sum_nil, mul_zero, add_zero] at hsum
      linarith
    · exact ⟨hs, hv⟩
  | cons dt rest ih =>
    intro t hnn hinv
    have hdt0 : 0 ≤ dt := hnn dt (by simp)
    have hrest : ∀ x ∈ rest, 0 ≤ x := fun x hx => hnn x (by simp [hx])
    have hrun : animRun 4 (dt :: rest) t = animRun 4 rest ((animStep 4 dt t false).1) := rfl
    rw [hrun]
    rcases hinv with ⟨hs, h0, h1, hsum⟩ | ⟨hs, hv⟩
    · by_cases hge : 1 ≤ t.value + dt * 4
      · refine ih _ hrest (Or.inr ?_)
        have hc := (animStep_appear 4 dt t false hs).1 hge
        exact ⟨hc.2, hc.1⟩
      · refine ih _ hrest (Or.inl ?_)
        have hc := (animStep_appear 4 dt t false hs).2 hge
        have hsum' : (dt :: rest).sum = dt + rest.sum := by simp
        refine ⟨hc.2, ?_, ?_, ?_⟩
        · rw [hc.1]; positivity
        · rw [hc.1]; linarith
        · rw [hc.1]; rw [hsum'] at hsum; linarith
    · have hne1 : t.state ≠ ToastState.Appear := by rw [hs]; intro hcon; cases hcon
      have hne2 : t.state ≠ ToastState.Disapper := by rw [hs]; intro hcon; cases hcon
      rw [animStep_other 4 dt t false hne1 hne2]
      exact ih _ hrest (Or.inr ⟨hs, hv⟩)

lemma gc_not_disappeared (c : Toasts) (j : ℕ) (t : Toast)
    (hget : (gcStep c.toasts)[j]? = some t) : t.state ≠ ToastState.Disappeared := by
  have hmem : t ∈ gcStep c.toasts := List.getElem?_mem hget
  simp only [gcStep, List.mem_filter, Bool.not_eq_true'] at hmem
  cases hs : t.state <;> simp_all [ToastState.disappeared]

lemma frame_state_evolution (c : Toasts) (input : FrameInput) (j : ℕ) (t t' : Toast)
    (hget : (gcStep c.toasts)[j]? = some t)
    (hout : ((c.showFrame input).1.toasts)[j]? = some t') :
    t.state.rank ≤ t'.state.rank ∨ t'.state = ToastState.Disapper := by
  have hne := gc_not_disappeared c j t hget
  have hexp := expireStep_get? (gcStep c.toasts) j t hget
  set te := (match t.options.duration with
    | some (_, d) => if d ≤ 0 then { t with state := ToastState.Disapper } else t
    | Option.none => t) with hte
  have hrank_te : t.state.rank ≤ te.state.rank := (expireFn_state_rank t hne te hte).1
  obtain ⟨a', hld', d', r', o, ho, hor⟩ := showFrame_get c input j te hexp
  have hot' : o = t' := by
    rw [ho] at hout
    exact Option.some.inj hout
  subst hot'
  rcases hor with hsame | hdis
  · left
    calc t.state.rank ≤ te.state.rank := hrank_te
      _ ≤ (processToast c input j a' hld' d' r' te).toast.state.rank :=
          processToast_state_rank c input j a' hld' d' r' te
      _ = o.state.rank := by rw [hsame]
  · right
    rw [hdis]
    rfl

lemma showLoop_held_of_entry (c : Toasts) (input : FrameInput)
    (hheld : c.held = true) (hrel : input.primary_released = false) :
    (c.showFrame input).1.held = true := by
  rw [showFrame_eq]
  show (frameLoop c input).held = true
  unfold frameLoop
  rw [show (if input.primary_released then false else c.held) = true by
    simp [hrel, hheld]]
  exact showLoop_held_true c input _ _ _ _ _

lemma hitStep_press_accept (input : FrameInput) (i : ℕ) (tr cr : Rect) (t : Toast)
    (d : Option ℕ) (p : Pos) (hp : input.press_origin = some p)
    (hc : cr.containsPos p = true) :
    (hitStep input i tr (some cr) t false d).held = true ∧
    (hitStep input i tr (some cr) t false d).dismiss = some i := by
  cases h1 : input.hover_pos <;> simp only [hitStep, h1, hp] <;> simp [hc]

lemma diffCount_applyDismiss (ts : List Toast) (o : Option ℕ) :
    diffCount ts (applyDismiss ts o) ≤ 1 := by
  cases o with
  | none =>
    show diffCount ts ts ≤ 1
    rw [diffCount_self]
    exact Nat.zero_le 1
  | some n => exact diffCount_dismissAt ts n

lemma drainStep_none (i : ℕ) (t : Toast) (d : Option ℕ)
    (h : t.update_reciever = Option.none) :
    drainStep i t d = { toast := t, dismiss := d } := by
  unfold drainStep
  rw [h]

lemma hitStep_flags_hover_none (input : FrameInput) (i : ℕ) (tr : Rect)
    (cr : Option Rect) (t : Toast) (held : Bool) (d : Option ℕ)
    (h : input.hover_pos = Option.none) :
    (hitStep input i tr cr t held d).toast.toast_hovered = t.toast_hovered ∧
    (hitStep input i tr cr t held d).toast.cross_hovered = t.cross_hovered := by
  rcases cr with _ | cr'
  · simp [hitStep]
  · cases h2 : input.press_origin <;> simp only [hitStep, h, h2] <;>
      (try split_ifs) <;> simp

lemma hitStep_flags_hover_some (input : FrameInput) (i : ℕ) (tr cr' : Rect)
    (t : Toast) (held : Bool) (d : Option ℕ) (p : Pos)
    (h : input.hover_pos = some p) :
    (hitStep input i tr (some cr') t held d).toast.toast_hovered = tr.containsPos p ∧
    (hitStep input i tr (some cr') t held d).toast.cross_hovered = cr'.containsPos p := by
  cases h2 : input.press_origin <;> simp only [hitStep, h, h2] <;>
    (try split_ifs) <;> simp

lemma tickStep_hov (dt : ℚ) (t : Toast) (r : Bool) :
    (tickStep dt t r).1.toast_hovered = t.toast_hovered := (tickStep_toast_core dt t r).2.2.1

lemma tickStep_crosshov (dt : ℚ) (t : Toast) (r : Bool) :
    (tickStep dt t r).1.cross_hovered = t.cross_hovered :=
  (tickStep_toast_core dt t r).2.2.2.1

lemma tickStep_closable (dt : ℚ) (t : Toast) (r : Bool) :
    (tickStep dt t r).1.options.closable = t.options.closable :=
  (tickStep_toast_core dt t r).2.2.2.2.2.1

lemma animStep_hov (speed dt : ℚ) (t : Toast) (r : Bool) :
    (animStep speed dt t r).1.toast_hovered = t.toast_hovered :=
  (animStep_toast_core speed dt t r).1

lemma animStep_crosshov (speed dt : ℚ) (t : Toast) (r : Bool) :
    (animStep speed dt t r).1.cross_hovered = t.cross_hovered :=
  (animStep_toast_core speed dt t r).2.1

lemma stage1_toast_of_none (input : FrameInput) (i : ℕ) (d : Option ℕ) (r : Bool)
    (t : Toast) (hnr : t.update_reciever = Option.none) :
    (stage1 input i d r t).1.toast_hovered = t.toast_hovered ∧
    (stage1 input i d r t).1.cross_hovered = t.cross_hovered ∧
    (stage1 input i d r t).1.options.closable = t.options.closable := by
  unfold stage1
  rw [drainStep_none i t d hnr]
  exact ⟨tickStep_hov _ _ _, tickStep_crosshov _ _ _, tickStep_closable _ _ _⟩

lemma houtC2 : ((cC2.showFrame inputBasic).1.toasts)[0]? = some tOutC2 := by
  norm_num [Toasts.showFrame, gcStep, expireStep, showLoop, processToast, drainStep,
    tickStep, geomStep, hitStep, animStep, applyDismiss, dismissAt, Toasts.new,
    ToastOptions.default, inputBasic, measureTen, tC2, cC2, tOutC2,
    show lineCount "x" = 1 from rfl, ease_in_cubic,
    Align2.posInRectWithMargin, Align2.posInRect, Align2.RIGHT_BOTTOM, Align2.toSign,
    Align.toSignQ, mul_vec2, Pos.add, Align2.alignSizeToPos, Rect.fromCenterSize,
    Align2.offsetHeight, Align2.side, Rect.width, Rect.height, Rect.containsPos,
    ToastState.appearing, ToastState.disappearing, ToastState.disappeared,
    ToastState.idling]

/-- Claim C10: the three collection-level dismissal operations are safe
no-ops on an empty collection: each returns normally and leaves the
collection unchanged. -/
theorem C10_dismiss_on_empty (c : Toasts) (h : c.toasts = []) :
    c.dismiss_oldest_toast = c ∧ c.dismiss_latest_toast = c ∧ c.dismiss_all_toasts = c := by
  refine ⟨?_, ?_, ?_⟩
  · unfold Toasts.dismiss_oldest_toast
    rw [h]
  · unfold Toasts.dismiss_latest_toast
    rw [h]
    show { c with toasts := dismissLast [] } = c
    rw [show dismissLast [] = ([] : List Toast) from rfl, ← h]
  · unfold Toasts.dismiss_all_toasts
    rw [h]
    show { c with toasts := List.map Toast.dismiss [] } = c
    rw [show List.map Toast.dismiss [] = ([] : List Toast) from rfl, ← h]

/-- Witness for C10 at the concrete empty collection `Toasts.new`. -/
theorem C10_dismiss_on_empty_witness :
    Toasts.new.dismiss_oldest_toast = Toasts.new ∧
      Toasts.new.dismiss_latest_toast = Toasts.new ∧
      Toasts.new.dismiss_all_toasts = Toasts.new :=
  C10_dismiss_on_empty Toasts.new rfl

/-- Claim C5: `create_channel` immediately (before any frame update) clears
the duration, disables closability and installs a fresh subscription, while
leaving caption, level, progress-bar flag, width, height, value and state
unchanged. -/
theorem C5_create_channel (t : Toast) :
    (t.create_channel).options.duration = Option.none ∧
    (t.create_channel).options.closable = false ∧
    (t.create_channel).update_reciever = some { pending := [], connected := true } ∧
    (t.create_channel).caption = t.caption ∧
    (t.create_channel).options.level = t.options.level ∧
    (t.create_channel).options.show_progress_bar = t.options.show_progress_bar ∧
    (t.create_channel).width = t.width ∧
    (t.create_channel).height = t.height ∧
    (t.create_channel).value = t.value ∧
    (t.create_channel).state = t.state :=
  ⟨rfl, rfl, rfl, rfl, rfl, rfl, rfl, rfl, rfl, rfl⟩

/-- Witness for C5 at the concrete toast `Toast.basic "x" 0`. -/
theorem C5_create_channel_witness :
    ((Toast.basic "x" 0).create_channel).options.duration = Option.none ∧
    ((Toast.basic "x" 0).create_channel).options.closable = false ∧
    ((Toast.basic "x" 0).create_channel).update_reciever =
      some { pending := [], connected := true } ∧
    ((Toast.basic "x" 0).create_channel).caption = (Toast.basic "x" 0).caption ∧
    ((Toast.basic "x" 0).create_channel).options.level =
      (Toast.basic "x" 0).options.level ∧
    ((Toast.basic "x" 0).create_channel).options.show_progress_bar =
      (Toast.basic "x" 0).options.show_progress_bar ∧
    ((Toast.basic "x" 0).create_channel).width = (Toast.basic "x" 0).width ∧
    ((Toast.basic "x" 0).create_channel).height = (Toast.basic "x" 0).height ∧
    ((Toast.basic "x" 0).create_channel).value = (Toast.basic "x" 0).value ∧
    ((Toast.basic "x" 0).create_channel).state = (Toast.basic "x" 0).state :=
  C5_create_channel (Toast.basic "x" 0)

/-- Claim C6: the per-frame drain of a subscribed toast with pending messages
receives exactly one message (the rest stay queued for later frames) and
merges exactly the present fields: a present caption replaces the caption, a
present level replaces `options.level`, present fallback options replace the
stored `fallback_options`, and absent fields leave the corresponding state
untouched; state, value, duration and closability are never touched by a
successful receive.  The last conjunct is the caption-only scenario. -/
theorem C6_drain_merge (i : ℕ) (t : Toast) (d : Option ℕ) (u : ToastUpdate)
    (rest : List ToastUpdate) (conn : Bool)
    (h : t.update_reciever = some { pending := u :: rest, connected := conn }) :
    ((drainStep i t d).toast.caption =
      (match u.caption with | some cap => cap | Option.none => t.caption)) ∧
    ((drainStep i t d).toast.options.level =
      (match u.level with | some l => l | Option.none => t.options.level)) ∧
    ((drainStep i t d).toast.fallback_options =
      (match u.fallback_options with | some fo => some fo | Option.none => t.fallback_options)) ∧
    (drainStep i t d).toast.update_reciever = some { pending := rest, connected := conn } ∧
    (drainStep i t d).toast.state = t.state ∧
    (drainStep i t d).toast.value = t.value ∧
    (drainStep i t d).toast.options.duration = t.options.duration ∧
    (drainStep i t d).toast.options.closable = t.options.closable ∧
    (drainStep i t d).toast.options.show_progress_bar = t.options.show_progress_bar ∧
    (drainStep i t d).dismiss = d ∧
    (∀ cap b,
      u = { caption := some cap, level := Option.none, fallback_options := Option.none,
            use_original_options := b } →
      (drainStep i t d).toast.caption = cap ∧
      (drainStep i t d).toast.options.level = t.options.level ∧
      (drainStep i t d).toast.fallback_options = t.fallback_options) := by
  obtain ⟨cap0, opts, oo, fo, hh, ww, thov, chov, tstamp, ur, st, v⟩ := t
  simp only at h
  subst h
  refine ⟨rfl, rfl, rfl, rfl, rfl, rfl, rfl, rfl, rfl, rfl, ?_⟩
  intro cap b hu
  subst hu
  exact ⟨rfl, rfl, rfl⟩

/-- Witness for C6: draining `tSub` consumes exactly the caption-only head
message — the caption becomes `"new"`, level and fallback options stay
unchanged, the second message stays queued, and no dismissal is recorded. -/
theorem C6_drain_merge_witness :
    (drainStep 0 tSub Option.none).toast.caption = "new" ∧
    (drainStep 0 tSub Option.none).toast.options.level = ToastLevel.none ∧
    (drainStep 0 tSub Option.none).toast.fallback_options = Option.none ∧
    (drainStep 0 tSub Option.none).toast.update_reciever =
      some { pending := [u2C6], connected := true } ∧
    (drainStep 0 tSub Option.none).dismiss = Option.none :=
  ⟨(C6_drain_merge 0 tSub Option.none u1C6 [u2C6] true rfl).1,
    (C6_drain_merge 0 tSub Option.none u1C6 [u2C6] true rfl).2.1,
    (C6_drain_merge 0 tSub Option.none u1C6 [u2C6] true rfl).2.2.1,
    (C6_drain_merge 0 tSub Option.none u1C6 [u2C6] true rfl).2.2.2.1,
    (C6_drain_merge 0 tSub Option.none u1C6 [u2C6] true rfl).2.2.2.2.2.2.2.2.2.1⟩

/-- Claim C3 (amended): how a disconnect is handled by the drain.  With
fallback options present, the toast's options are replaced wholesale, the
fallback is consumed and the subscription is cleared, with no dismissal
recorded.  With no fallback, the subscription is cleared and the toast's
index *overwrites* the frame's single dismissal slot — which is why, when
several subscribed toasts disconnect in the same frame, only the last such
toast (or a toast chosen by a later press) is actually dismissed that frame.
Once the subscription is cleared, a later frame's drain has no further
effect. -/
theorem C3_disconnect (i : ℕ) (t : Toast) (d : Option ℕ) :
    (∀ fo, t.update_reciever = some { pending := [], connected := false } →
      t.fallback_options = some fo →
      drainStep i t d =
        { toast :=
            { t with
              options := fo
              fallback_options := Option.none
              update_reciever := Option.none }
          dismiss := d }) ∧
    (t.update_reciever = some { pending := [], connected := false } →
      t.fallback_options = Option.none →
      drainStep i t d =
        { toast := { t with update_reciever := Option.none }, dismiss := some i }) ∧
    (t.update_reciever = Option.none →
      drainStep i t d = { toast := t, dismiss := d }) := by
  obtain ⟨cap0, opts, oo, fo, hh, ww, thov, chov, tstamp, ur, st, v⟩ := t
  refine ⟨?_, ?_, ?_⟩
  · intro fo' h1 h2
    simp only at h1 h2
    subst h1
    subst h2
    rfl
  · intro h1 h2
    simp only at h1 h2
    subst h1
    subst h2
    rfl
  · intro h1
    simp only at h1
    subst h1
    rfl

/-- Counterexample for C3 as stated: when two subscribed toasts without
fallback options disconnect in the same frame, both subscriptions are
cleared, but only the second toast is set to `Disappearing` at the end of the
frame — the first one stays `Idle` (its dismissal-slot entry was overwritten)
and, its subscription gone, will never be auto-dismissed. -/
theorem C3_multi_disconnect_counterexample :
    ((cC3.showFrame inputBasic).1.toasts.map Toast.state =
      [ToastState.Idle, ToastState.Disapper]) ∧
    ((cC3.showFrame inputBasic).1.toasts.map Toast.update_reciever =
      [Option.none, Option.none]) ∧
    ToastState.Idle ≠ ToastState.Disapper := by
  refine ⟨?_, ?_, by decide⟩ <;>
    norm_num [Toasts.showFrame, gcStep, expireStep, showLoop, processToast, drainStep,
      tickStep, geomStep, hitStep, animStep, applyDismiss, dismissAt, Toast.dismiss,
      Toasts.new, ToastOptions.default, inputBasic, measureTen, tC2, tD0, cC3,
      show lineCount "x" = 1 from rfl, ease_in_cubic,
      Align2.posInRectWithMargin, Align2.posInRect, Align2.RIGHT_BOTTOM, Align2.toSign,
      Align.toSignQ, mul_vec2, Pos.add, Align2.alignSizeToPos, Rect.fromCenterSize,
      Align2.offsetHeight, Align2.side, Rect.width, Rect.height, Rect.containsPos,
      ToastState.appearing, ToastState.disappearing, ToastState.disappeared,
      ToastState.idling]

/-- Witness for C3 (amended): a disconnect with fallback installs `foX`
wholesale and clears the subscription without touching the dismissal slot; a
disconnect without fallback clears the subscription and *overwrites* the slot
(here `some 0` becomes `some 1`); and a toast whose subscription is already
cleared passes through the drain untouched. -/
theorem C3_disconnect_witness :
    (drainStep 0 tFB Option.none =
      { toast :=
          { tFB with
            options := foX
            fallback_options := Option.none
            update_reciever := Option.none }
        dismiss := Option.none }) ∧
    (drainStep 1 tNB (some 0) =
      { toast := { tNB with update_reciever := Option.none }, dismiss := some 1 }) ∧
    (drainStep 0 { tNB with update_reciever := Option.none } (some 5) =
      { toast := { tNB with update_reciever := Option.none }, dismiss := some 5 }) :=
  ⟨(C3_disconnect 0 tFB Option.none).1 foX rfl rfl,
    (C3_disconnect 1 tNB (some 0)).2.1 rfl rfl,
    (C3_disconnect 0 { tNB with update_reciever := Option.none } (some 5)).2.2 rfl⟩

/-- Claim C1 (amended): the upper bound `value ≤ 1` is a frame invariant of
the whole collection (given nonnegative frame time and speed), and the
`Appearing` update does clamp to `1` on the transition to `Idle`; but the
`Disappearing` update performs `value -= dt * speed` with *no clamp*: the
transition to `Disappeared` happens exactly when the decremented value is
`≤ 0`, and the toast keeps that (possibly negative) value, so the lower bound
of `value ∈ [0,1]` fails at the `Disappearing → Disappeared` transition. -/
theorem C1_value_bounds :
    (∀ (c : Toasts) (input : FrameInput), 0 ≤ input.stable_dt → 0 ≤ c.speed →
      (∀ t ∈ c.toasts, t.value ≤ 1) →
      ∀ t' ∈ (c.showFrame input).1.toasts, t'.value ≤ 1) ∧
    (∀ (speed dt : ℚ) (t : Toast) (r : Bool), t.state = ToastState.Appear →
      1 ≤ t.value + dt * speed →
      (animStep speed dt t r).1.value = 1 ∧
      (animStep speed dt t r).1.state = ToastState.Idle) ∧
    (∀ (speed dt : ℚ) (t : Toast) (r : Bool), t.state = ToastState.Disapper →
      (animStep speed dt t r).1.value = t.value - dt * speed ∧
      (t.value - dt * speed ≤ 0 →
        (animStep speed dt t r).1.state = ToastState.Disappeared) ∧
      (0 < t.value - dt * speed →
        (animStep speed dt t r).1.state = ToastState.Disapper)) := by
  refine ⟨?_, ?_, ?_⟩
  · intro c input hdt hsp hall t' ht'
    rw [showFrame_eq] at ht'
    simp only at ht'
    obtain ⟨t2, ht2mem, ht2or⟩ := mem_applyDismiss _ _ _ ht'
    obtain ⟨te, htemem, i', a', hld', d', r', he⟩ :=
      mem_showLoop c input _ _ _ _ _ _ t2 ht2mem
    obtain ⟨t0, ht0mem, hfe⟩ := List.mem_map.1 htemem
    have ht0 : t0 ∈ c.toasts := List.mem_of_mem_filter ht0mem
    have hv0 : t0.value ≤ 1 := hall t0 ht0
    have hvte : te.value ≤ 1 := by
      rw [← hfe]
      rcases t0.options.duration with _ | ⟨a0, d0⟩
      · simpa using hv0
      · by_cases hd : d0 ≤ 0 <;> simp [hd, hv0]
    have hvt2 : t2.value ≤ 1 := by
      rw [he]
      exact processToast_value_le_one c input i' a' hld' d' r' te hdt hsp hvte
    rcases ht2or with hsame | hdis
    · rw [hsame]; exact hvt2
    · rw [hdis, dismiss_value]; exact hvt2
  · intro speed dt t r hs hge
    exact (animStep_appear speed dt t r hs).1 hge
  · intro speed dt t r hs
    exact animStep_disapper_val speed dt t r hs

/-- Witness for C1: the appearing clamp reaches exactly `1` and `Idle` after
a quarter-second frame, and a disappearing toast's value drops by
`dt * speed` with the `Disappeared` transition at `≤ 0`. -/
theorem C1_value_bounds_witness :
    ((animStep 4 (1 / 4) tApp false).1.value = 1 ∧
      (animStep 4 (1 / 4) tApp false).1.state = ToastState.Idle) ∧
    (animStep 4 1 tC2 false).1.value = 1 - 1 * 4 ∧
    (animStep 4 1 tC2 false).1.state = ToastState.Disappeared :=
  ⟨C1_value_bounds.2.1 4 (1 / 4) tApp false rfl
      (by norm_num [tApp, Toast.basic, Toast.new]),
    (C1_value_bounds.2.2 4 1 tC2 false rfl).1,
    (C1_value_bounds.2.2 4 1 tC2 false rfl).2.1 (by norm_num [tC2])⟩

/-- Counterexample for C1 as stated: after a one-second frame the
disappearing toast (entering with `value = 1/2`) reaches `Disappeared` with
`value = 1/2 - 1 * 4 = -7/2`, which is *not* clamped to `0` and lies outside
`[0, 1]`. -/
theorem C1_no_lower_clamp_counterexample :
    ((cC1.showFrame inputDt1).1.toasts.map Toast.value = [-(7 / 2 : ℚ)]) ∧
    ((cC1.showFrame inputDt1).1.toasts.map Toast.state = [ToastState.Disappeared]) ∧
    ¬(0 ≤ (-(7 / 2) : ℚ)) := by
  refine ⟨?_, ?_, by norm_num⟩ <;>
    norm_num [Toasts.showFrame, gcStep, expireStep, showLoop, processToast, drainStep,
      tickStep, geomStep, hitStep, animStep, applyDismiss, dismissAt, Toasts.new,
      ToastOptions.default, inputDt1, inputBasic, measureTen, tC2, tCex, cC1,
      show lineCount "x" = 1 from rfl, ease_in_cubic,
      Align2.posInRectWithMargin, Align2.posInRect, Align2.RIGHT_BOTTOM, Align2.toSign,
      Align.toSignQ, mul_vec2, Pos.add, Align2.alignSizeToPos, Rect.fromCenterSize,
      Align2.offsetHeight, Align2.side, Rect.width, Rect.height, Rect.containsPos,
      ToastState.appearing, ToastState.disappearing, ToastState.disappeared,
      ToastState.idling]

/-- Claim C8: under the per-frame `Appearing` update with `speed = 4`
value-units per second, any sequence of nonnegative frame times accumulating
to at least `0.25` seconds brings a fresh `Appearing` toast (`value = 0`) to
`value = 1` exactly (clamped) with state `Idle`; fifteen frames of `1/60`
seconds are such a sequence (see the witness). -/
theorem C8_appear_quarter_second (t : Toast) (dts : List ℚ)
    (hs : t.state = ToastState.Appear) (hv : t.value = 0)
    (hnn : ∀ dt ∈ dts, 0 ≤ dt) (hsum : 1 / 4 ≤ dts.sum) :
    (animRun 4 dts t).value = 1 ∧ (animRun 4 dts t).state = ToastState.Idle := by
  have h := animRun_reaches dts t hnn
    (Or.inl ⟨hs, by rw [hv], by rw [hv]; norm_num, by rw [hv]; linarith⟩)
  exact ⟨h.2, h.1⟩

/-- Witness for C8: the concrete toast `Toast.basic "w" 0` (state
`Appearing`, `value = 0`) run through fifteen frames of `1/60` seconds at
speed `4` ends with `value = 1` and state `Idle`. -/
theorem C8_appear_quarter_second_witness :
    (animRun 4 (List.replicate 15 (1 / 60)) (Toast.basic "w" 0)).value = 1 ∧
      (animRun 4 (List.replicate 15 (1 / 60)) (Toast.basic "w" 0)).state =
        ToastState.Idle :=
  C8_appear_quarter_second (Toast.basic "w" 0) (List.replicate 15 (1 / 60)) rfl rfl
    (by
      intro dt hdt
      rw [List.eq_of_mem_replicate hdt]
      norm_num)
    (by
      rw [List.sum_replicate]
      norm_num)

/-- Claim C2 (amended): `dismiss()` always re-enters `Disappearing`, from any
state — including an already-`Disappeared` toast, which is thereby re-armed
(a backward transition, the one exception to forward-only movement).  Apart
from that, a frame update moves every surviving toast's state forward along
`Appearing → Idle → Disappearing → Disappeared` (possibly skipping states, as
the expiry pass does for an expired `Appearing` toast), except that the
end-of-frame dismissal may put it in `Disappearing`; in particular a toast
that entered the frame `Disappearing` or `Disappeared` is never observed in
`Idle` or `Appearing` afterwards. -/
theorem C2_forward_transitions :
    (∀ t : Toast, (t.dismiss).state = ToastState.Disapper) ∧
    (∀ (c : Toasts) (input : FrameInput) (j : ℕ) (t t' : Toast),
      (gcStep c.toasts)[j]? = some t →
      ((c.showFrame input).1.toasts)[j]? = some t' →
      t.state.rank ≤ t'.state.rank ∨ t'.state = ToastState.Disapper) ∧
    (∀ (c : Toasts) (input : FrameInput) (j : ℕ) (t t' : Toast),
      (gcStep c.toasts)[j]? = some t →
      ((c.showFrame input).1.toasts)[j]? = some t' →
      t.state = ToastState.Disapper ∨ t.state = ToastState.Disappeared →
      t'.state ≠ ToastState.Idle ∧ t'.state ≠ ToastState.Appear) := by
  refine ⟨fun _ => rfl, frame_state_evolution, ?_⟩
  intro c input j t t' hget hout hdis
  have h := frame_state_evolution c input j t t' hget hout
  have hrk : 2 ≤ t.state.rank := by
    rcases hdis with hs | hs <;> rw [hs] <;> simp [ToastState.rank]
  rcases h with hle | hds
  · have : 2 ≤ t'.state.rank := le_trans hrk hle
    cases hs' : t'.state <;> simp_all [ToastState.rank]
  · rw [hds]
    refine ⟨?_, ?_⟩ <;> decide

/-- Witness for C2: the concrete frame `cC2.showFrame inputBasic` moves the
disappearing toast forward (it stays `Disapper` with a smaller value), and
`dismiss` on it yields `Disapper`. -/
theorem C2_forward_transitions_witness :
    (tC2.dismiss).state = ToastState.Disapper ∧
    (tC2.state.rank ≤ tOutC2.state.rank ∨ tOutC2.state = ToastState.Disapper) ∧
    (tOutC2.state ≠ ToastState.Idle ∧ tOutC2.state ≠ ToastState.Appear) :=
  ⟨C2_forward_transitions.1 tC2,
    C2_forward_transitions.2.1 cC2 inputBasic 0 tC2 tOutC2 rfl houtC2,
    C2_forward_transitions.2.2 cC2 inputBasic 0 tC2 tOutC2 rfl houtC2 (Or.inl rfl)⟩

/-- Counterexample for C2 as stated: `dismiss()` on an already-`Disappeared`
toast produces the transition `Disappeared → Disappearing`, which is outside
the claim's allowed set (backwards out of the terminal state). -/
theorem C2_dismiss_disappeared_counterexample :
    (tDead.dismiss).state = ToastState.Disapper ∧
    specAllowedTransition ToastState.Disappeared (tDead.dismiss).state = false :=
  ⟨rfl, rfl⟩

/-- Claim C7: a surviving toast that enters the frame `Idle` with a set
duration whose remaining component has reached zero is put in `Disappearing`
by the expiry pass of that very frame update, and at the end of the frame it
is `Disappearing` (or already `Disappeared`, when the frame time was long
enough to finish the exit animation).  The statement holds for every
`FrameInput`, so it is independent of the pointer's hover and press state. -/
theorem C7_idle_expiry (c : Toasts) (input : FrameInput) (j : ℕ) (t : Toast)
    (hget : (gcStep c.toasts)[j]? = some t)
    (_hidle : t.state = ToastState.Idle)
    (a drem : ℚ) (hdur : t.options.duration = some (a, drem)) (hd : drem ≤ 0) :
    (expireStep (gcStep c.toasts))[j]? = some { t with state := ToastState.Disapper } ∧
    ∃ t', ((c.showFrame input).1.toasts)[j]? = some t' ∧
      (t'.state = ToastState.Disapper ∨ t'.state = ToastState.Disappeared) := by
  have hexp : (expireStep (gcStep c.toasts))[j]? =
      some { t with state := ToastState.Disapper } := by
    rw [expireStep_get? (gcStep c.toasts) j t hget]
    simp [hdur, hd]
  refine ⟨hexp, ?_⟩
  obtain ⟨a', hld', d', r', o, ho, hor⟩ :=
    showFrame_get c input j { t with state := ToastState.Disapper } hexp
  refine ⟨o, ho, ?_⟩
  have hstep := processToast_disapper c input j a' hld' d' r'
    { t with state := ToastState.Disapper } rfl
  rcases hor with hsame | hdis
  · rw [hsame]
    exact hstep
  · left
    rw [hdis]
    rfl

/-- Witness for C7: the expiry pass of the concrete frame puts the expired
idle toast `tC7` in `Disappearing`. -/
theorem C7_idle_expiry_witness :
    (expireStep (gcStep cC7.toasts))[0]? = some { tC7 with state := ToastState.Disapper } :=
  (C7_idle_expiry cC7 inputBasic 0 tC7 rfl rfl 3 0 rfl (by norm_num)).1

/-- Claim C4: pointer-press dismissal is limited to one toast per frame and
per physical press.  (1) With the press guard already set, the loop body
never records a press dismissal (the slot and guard pass through untouched,
provided the toast's channel is not delivering a disconnect, which uses the
same slot); so a held press never dismisses a second toast on later frames.
(2) The first accepted press — press origin inside a closable toast's
close-cross rectangle with the guard clear — records exactly that toast's
index and sets the guard.  (3) The guard is cleared only by a primary-button
release: without a release it survives the whole frame.  (4) The end-of-frame
application of the single dismissal slot modifies at most one toast. -/
theorem C4_one_dismiss_per_press :
    (∀ (cfg : Toasts) (input : FrameInput) (i : ℕ) (a : Pos) (d : Option ℕ) (r : Bool)
      (t : Toast), noDisconnect t →
      (processToast cfg input i a true d r t).held = true ∧
      (processToast cfg input i a true d r t).dismiss = d) ∧
    (∀ (input : FrameInput) (i : ℕ) (tr cr : Rect) (t : Toast) (d : Option ℕ) (p : Pos),
      input.press_origin = some p → cr.containsPos p = true →
      (hitStep input i tr (some cr) t false d).held = true ∧
      (hitStep input i tr (some cr) t false d).dismiss = some i) ∧
    (∀ (c : Toasts) (input : FrameInput), c.held = true → input.primary_released = false →
      (c.showFrame input).1.held = true) ∧
    (∀ (ts : List Toast) (o : Option ℕ), diffCount ts (applyDismiss ts o) ≤ 1) := by
  refine ⟨?_, hitStep_press_accept, showLoop_held_of_entry, diffCount_applyDismiss⟩
  intro cfg input i a d r t hnd
  exact ⟨processToast_held_true cfg input i a d r t,
    processToast_dismiss_held_true cfg input i a d r t hnd⟩

/-- Witness for C4 at concrete inputs: with the guard set, the loop body
passes guard and slot through unchanged; a press at `(5, 5)` inside a
close-cross rectangle with the guard clear records index 2 and sets the
guard; a collection entering a release-free frame with the guard set leaves
with it still set; and applying the dismissal slot `some 0` to a singleton
list changes at most one toast. -/
theorem C4_one_dismiss_per_press_witness :
    ((processToast cC2 inputBasic 3 aPos0 true (some 7) false tC2).held = true ∧
      (processToast cC2 inputBasic 3 aPos0 true (some 7) false tC2).dismiss = some 7) ∧
    ((hitStep inputPress 2 rectTen (some rectTen) tC2 false Option.none).held = true ∧
      (hitStep inputPress 2 rectTen (some rectTen) tC2 false Option.none).dismiss =
        some 2) ∧
    ({ cC2 with held := true }.showFrame inputBasic).1.held = true ∧
    diffCount [tC2] (applyDismiss [tC2] (some 0)) ≤ 1 :=
  ⟨C4_one_dismiss_per_press.1 cC2 inputBasic 3 aPos0 (some 7) false tC2
      (by intro ch h; simp [tC2] at h),
    C4_one_dismiss_per_press.2.1 inputPress 2 rectTen rectTen tC2 Option.none
      { x := 5, y := 5 } rfl (by norm_num [rectTen, Rect.containsPos]),
    C4_one_dismiss_per_press.2.2.1 { cC2 with held := true } inputBasic rfl rfl,
    C4_one_dismiss_per_press.2.2.2 [tC2] (some 0)⟩

/-- Claim C9 (amended): the hover flags are refreshed from an available
pointer hover position only for a *closable* toast (the refresh sits inside
the close-cross block of the source); when the toast is not closable, or no
hover position is available, both flags keep their previous values.  For a
closable toast with a hover position, `toast_hovered` becomes exactly the
containment test of the toast rectangle and `cross_hovered` that of the
close-cross rectangle.  (Stated for unsubscribed toasts, whose closability
is not changed by the channel drain earlier in the same loop body.) -/
theorem C9_hover_refresh (cfg : Toasts) (input : FrameInput) (i : ℕ) (a : Pos)
    (held : Bool) (d : Option ℕ) (r : Bool) (t : Toast)
    (hnr : t.update_reciever = Option.none) :
    (input.hover_pos = Option.none →
      (processToast cfg input i a held d r t).toast.toast_hovered = t.toast_hovered ∧
      (processToast cfg input i a held d r t).toast.cross_hovered = t.cross_hovered) ∧
    (t.options.closable = false →
      (processToast cfg input i a held d r t).toast.toast_hovered = t.toast_hovered ∧
      (processToast cfg input i a held d r t).toast.cross_hovered = t.cross_hovered) ∧
    (∀ p, input.hover_pos = some p → t.options.closable = true →
      ∃ cr, (stageGeom cfg input i a d r t).crossRect = some cr ∧
        (processToast cfg input i a held d r t).toast.toast_hovered =
          (stageGeom cfg input i a d r t).toastRect.containsPos p ∧
        (processToast cfg input i a held d r t).toast.cross_hovered =
          cr.containsPos p) := by
  obtain ⟨hst1, hst2, hst3⟩ := stage1_toast_of_none input i d r t hnr
  refine ⟨?_, ?_, ?_⟩
  · intro hh
    rw [processToast_eq]
    simp only [animStep_hov, animStep_crosshov]
    unfold stageHit
    rw [(hitStep_flags_hover_none input i _ _ _ held _ hh).1,
      (hitStep_flags_hover_none input i _ _ _ held _ hh).2]
    unfold stageGeom
    exact ⟨hst1, hst2⟩
  · intro hcl
    rw [processToast_eq]
    simp only [animStep_hov, animStep_crosshov]
    unfold stageHit
    have hcr : (stageGeom cfg input i a d r t).crossRect = Option.none := by
      unfold stageGeom
      exact geomStep_crossRect_none cfg input a _ (by rw [hst3]; exact hcl)
    rw [hcr, hitStep_none]
    unfold stageGeom
    exact ⟨hst1, hst2⟩
  · intro p hh hcl
    have hcr := geomStep_crossRect_some cfg input a (stage1 input i d r t).1
      (by rw [hst3]; exact hcl)
    obtain ⟨cr, hcr⟩ := hcr
    refine ⟨cr, by unfold stageGeom; exact hcr, ?_⟩
    rw [processToast_eq]
    simp only [animStep_hov, animStep_crosshov]
    unfold stageHit stageGeom
    rw [hcr]
    exact hitStep_flags_hover_some input i _ cr _ held _ p hh

/-- Counterexample for C9 as stated: the pointer hovers at `pHover`, which
lies inside the toast's computed rectangle, but because the toast is not
closable the frame leaves `toast_hovered` at its stale `false` — the flags
are *not* refreshed for non-closable toasts. -/
theorem C9_no_refresh_counterexample :
    inputHover.hover_pos = some pHover ∧
    (geomStep cC9 inputHover
        (cC9.anchor.posInRectWithMargin inputHover.screen_rect cC9.margin)
        tC9).toastRect.containsPos pHover = true ∧
    tC9.options.closable = false ∧
    tC9.toast_hovered = false ∧
    ((cC9.showFrame inputHover).1.toasts.map Toast.toast_hovered = [false]) := by
  refine ⟨rfl, ?_, rfl, rfl, ?_⟩ <;>
    norm_num [Toasts.showFrame, gcStep, expireStep, showLoop, processToast, drainStep,
      tickStep, geomStep, hitStep, animStep, applyDismiss, dismissAt, Toasts.new,
      ToastOptions.default, inputHover, inputBasic, measureTen, tC2, tC9, cC9, pHover,
      show lineCount "x" = 1 from rfl, ease_in_cubic,
      Align2.posInRectWithMargin, Align2.posInRect, Align2.RIGHT_BOTTOM, Align2.toSign,
      Align.toSignQ, mul_vec2, Pos.add, Align2.alignSizeToPos, Rect.fromCenterSize,
      Align2.offsetHeight, Align2.side, Rect.width, Rect.height, Rect.containsPos,
      ToastState.appearing, ToastState.disappearing, ToastState.disappeared,
      ToastState.idling]

/-- Witness for C9 (amended) at concrete inputs: with no hover position the
loop body leaves both flags of `tC9` unchanged, and with a hover position
available they are still unchanged because `tC9` is not closable. -/
theorem C9_hover_refresh_witness :
    ((processToast cC9 inputBasic 0 aPos0 false Option.none false tC9).toast.toast_hovered =
        tC9.toast_hovered ∧
      (processToast cC9 inputBasic 0 aPos0 false Option.none false tC9).toast.cross_hovered =
        tC9.cross_hovered) ∧
    ((processToast cC9 inputHover 0 aPos0 false Option.none false tC9).toast.toast_hovered =
        tC9.toast_hovered ∧
      (processToast cC9 inputHover 0 aPos0 false Option.none false tC9).toast.cross_hovered =
        tC9.cross_hovered) :=
  ⟨(C9_hover_refresh cC9 inputBasic 0 aPos0 false Option.none false tC9 rfl).1 rfl,
    (C9_hover_refresh cC9 inputHover 0 aPos0 false Option.none false tC9 rfl).2.1 rfl⟩
